import Mathlib

/-!
Verification of the authentication core of `alx-backend-user-data`.

This file gives a shallow embedding, in Lean 4, of the functions of the
repository that the specification talks about:

* `Auth.require_auth` (path-exclusion matching,
  `0x01-Basic_authentication/api/v1/auth/auth.py` and the identical copy in
  `0x02-Session_authentication/api/v1/auth/auth.py`),
* the `BasicAuth` helper chain (`extract_base64_authorization_header`,
  `decode_base64_authorization_header`, `extract_user_credentials`,
  `user_object_from_credentials`, `current_user`) from
  `0x01-Basic_authentication/api/v1/auth/basic_auth.py`,
* `SessionExpAuth.user_id_for_session_id` and
  `SessionDBAuth.user_id_for_session_id` from
  `0x02-Session_authentication/api/v1/auth/session_exp_auth.py` and
  `session_db_auth.py`.

Python strings become `String` / `List Char`, `None`-able values become
`Option`, a raised exception that escapes the function becomes the `.error`
constructor of an `Except`, clock instants and durations become integers
(seconds), and the external storage collaborators (`User.search`,
`UserSession.search`, `is_valid_password`) become explicit parameters of the
embedded functions, so that every embedded function is a total computable
function of all of its inputs.
-/

deriving instance DecidableEq for Except

namespace AlxAuth

/-! ### Python string primitives -/

/-- The characters stripped by Python's `str.strip()` with no argument:
exactly the characters `c` for which `c.isspace()` holds (the ASCII
whitespace characters plus the Unicode space separators). -/
def pyIsSpace (c : Char) : Bool :=
  c ∈ [' ', '\t', '\n', '\x0b', '\x0c', '\r',
       '\x1c', '\x1d', '\x1e', '\x1f', '\x85', '\xa0',
       '\u1680', '\u2000', '\u2001', '\u2002', '\u2003', '\u2004', '\u2005',
       '\u2006', '\u2007', '\u2008', '\u2009', '\u200a',
       '\u2028', '\u2029', '\u202f', '\u205f', '\u3000']

/-- Removal of the maximal run of trailing whitespace, as Python's
`str.rstrip()` does. -/
def rstripList : List Char → List Char
  | [] => []
  | c :: t =>
    let r := rstripList t
    if r = [] then (if pyIsSpace c then [] else [c]) else c :: r

/-- Python's `str.strip()`: drop leading whitespace, then trailing
whitespace. -/
def pyStripList (l : List Char) : List Char :=
  rstripList (l.dropWhile pyIsSpace)

/-- Python `str.strip()` at the `String` level. -/
def pyStrip (s : String) : String :=
  String.mk (pyStripList s.data)

/-! ### The regex fragment used by `Auth.require_auth`

`require_auth` builds the pattern strings `<entry-minus-star>.*`,
`<entry-minus-slash>/*` and `<entry>/*` and hands them to `re.match`.  We
model exactly the regex fragment those strings can denote when the exclusion
entry itself contains no regex metacharacter: literal characters, `.`
(any character except a newline), and the postfix `*` quantifier applied to
a single literal or to `.`.  `re.match` anchors the pattern at the start of
the subject and succeeds as soon as the whole pattern is matched, leaving
any remainder of the subject unread. -/

/-- One token of the compiled pattern. -/
inductive RTok where
  | lit (c : Char)
  | dot
  | star (c : Char)
  | dotstar
deriving DecidableEq, Repr

/-- Compile a pattern string of the fragment above into tokens: a character
followed by `*` becomes a starred token, a `.` not followed by `*` becomes
the any-character token, and every other character stands for itself. -/
def compileAux : List Char → List RTok
  | [] => []
  | [c] => [if c = '.' then RTok.dot else RTok.lit c]
  | c :: c' :: rest =>
    if c' = '*' then
      (if c = '.' then RTok.dotstar else RTok.star c) :: compileAux rest
    else
      (if c = '.' then RTok.dot else RTok.lit c) :: compileAux (c' :: rest)

/-- Matching of `c*` followed by a continuation `k`: either `k` accepts the
subject right away (the star consumes nothing), or the next character equals
`c` and the starred token keeps consuming. -/
def starMatch (c : Char) (k : List Char → Bool) : List Char → Bool
  | [] => k []
  | x :: xs' => k (x :: xs') || (c == x && starMatch c k xs')

/-- Matching of `.*` followed by a continuation `k`: either `k` accepts the
subject right away, or the next character is not a newline and `.*` keeps
consuming (as in Python, `.` does not match a newline). -/
def dotstarMatch (k : List Char → Bool) : List Char → Bool
  | [] => k []
  | x :: xs' => k (x :: xs') || (x != '\n' && dotstarMatch k xs')

/-- Backtracking matcher for the compiled tokens, anchored at the start of
the subject and indifferent to any unread remainder (the semantics of
`re.match` returning a match object). -/
def rmatch : List RTok → List Char → Bool
  | [], _ => true
  | RTok.lit c :: ts, xs =>
    match xs with
    | [] => false
    | x :: xs' => c == x && rmatch ts xs'
  | RTok.dot :: ts, xs =>
    match xs with
    | [] => false
    | x :: xs' => x != '\n' && rmatch ts xs'
  | RTok.star c :: ts, xs => starMatch c (rmatch ts) xs
  | RTok.dotstar :: ts, xs => dotstarMatch (rmatch ts) xs

/-! ### `Auth.require_auth` -/

/-- The pattern string `require_auth` builds from one already-stripped,
nonempty exclusion entry:
`pattern = '{}.*'.format(e[0:-1])` when the entry ends in `*`,
`pattern = '{}/*'.format(e[0:-1])` when it ends in `/`, and
`pattern = '{}/*'.format(e)` otherwise. -/
def buildPattern (l : List Char) : List Char :=
  if l.getLastD ' ' = '*' then l.dropLast ++ ['.', '*']
  else if l.getLastD ' ' = '/' then l.dropLast ++ ['/', '*']
  else l ++ ['/', '*']

/-- Truthiness of `re.match(pattern, path)`, for the pattern built from the
stripped entry `l`. -/
def matchesPath (l : List Char) (path : List Char) : Bool :=
  rmatch (compileAux (buildPattern l)) path

/-- The loop body of `require_auth`: each entry is stripped, indexed at its
last character (an `IndexError`, modelled as `.error ()`, when the stripped
entry is empty), turned into a pattern and matched; the first match returns
`False`, falling off the loop returns `True`. -/
def requireAuthGo (path : List Char) : List String → Except Unit Bool
  | [] => .ok true
  | e :: rest =>
    let s := pyStripList e.data
    if s = [] then .error ()
    else if matchesPath s path then .ok false
    else requireAuthGo path rest

/-- The method `Auth.require_auth(path, excluded_paths)`.  When either argument is
`None` the loop is skipped and the result is `True`. -/
def require_auth (path : Option String) (excluded_paths : Option (List String)) :
    Except Unit Bool :=
  match path, excluded_paths with
  | some p, some l => requireAuthGo p.data l
  | _, _ => .ok true

example : require_auth (some "/api/v1/status/") (some ["/api/v1/status/"]) = .ok false := by
  decide

example : require_auth (some "/api/v1/statuses") (some ["/api/v1/status/"]) = .ok false := by
  decide

example : require_auth (some "/a") (some ["/a"]) = .ok false := by decide

example : require_auth (some "/ab") (some ["/a"]) = .ok false := by decide

example : require_auth (some "/b") (some ["/a"]) = .ok true := by decide

example : require_auth (some "/x") (some [" "]) = .error () := by decide

example : require_auth (some "/a") (some ["/a", ""]) = .ok false := by decide

/-! ### `BasicAuth.extract_base64_authorization_header`

The source performs `re.fullmatch(r'Basic (?P<token>.+)', header.strip())`
and returns the `token` group.  A full match of that pattern decomposes the
stripped header uniquely as the literal `"Basic "` followed by a nonempty
token containing no newline (`.` does not match `'\n'` and `+` requires at
least one character). -/

/-- The method `BasicAuth.extract_base64_authorization_header(authorization_header)`.
A non-string (`None`) argument falls through to `return None`. -/
def extract_base64_authorization_header (authorization_header : Option String) :
    Option String :=
  match authorization_header with
  | none => none
  | some h =>
    let l := pyStripList h.data
    if l.take 6 = "Basic ".data ∧ l.drop 6 ≠ [] ∧ '\n' ∉ l.drop 6 then
      some (String.mk (l.drop 6))
    else none

example : extract_base64_authorization_header (some "Basic abc") = some "abc" := by decide

example : extract_base64_authorization_header (some "  Basic abc  ") = some "abc" := by decide

example : extract_base64_authorization_header (some "Bearer abc") = none := by decide

example : extract_base64_authorization_header (some "Basic ") = none := by decide

example : extract_base64_authorization_header (some "Basic x ") = some "x" := by decide

/-! ### Base64 (`base64.b64decode(..., validate=True)`) and its canonical
encoder

Bytes are modelled as natural numbers below 256.  The encoder is the
canonical `base64.b64encode` mapping used by the round-trip property of the
specification; the decoder models the strict (`validate=True`) decoder: the
input length must be a multiple of four, every character must come from the
base64 alphabet except for the final one or two padding characters `=`, and
each quadruple of 6-bit values yields three, two or one byte. -/

/-- The base64 alphabet: `A-Z`, `a-z`, `0-9`, `+`, `/`. -/
def b64Char (i : Nat) : Char :=
  if i < 26 then Char.ofNat (65 + i)
  else if i < 52 then Char.ofNat (97 + (i - 26))
  else if i < 62 then Char.ofNat (48 + (i - 52))
  else if i = 62 then '+'
  else '/'

/-- The 6-bit value of an alphabet character, `none` for a character outside
the alphabet. -/
def b64Val (c : Char) : Option Nat :=
  if 'A' ≤ c ∧ c ≤ 'Z' then some (c.toNat - 65)
  else if 'a' ≤ c ∧ c ≤ 'z' then some (c.toNat - 97 + 26)
  else if '0' ≤ c ∧ c ≤ '9' then some (c.toNat - 48 + 52)
  else if c = '+' then some 62
  else if c = '/' then some 63
  else none

/-- Canonical base64 encoding of a byte sequence (`base64.b64encode`). -/
def b64EncodeBytes : List Nat → List Char
  | b0 :: b1 :: b2 :: rest =>
    b64Char (b0 / 4) :: b64Char (b0 % 4 * 16 + b1 / 16) ::
      b64Char (b1 % 16 * 4 + b2 / 64) :: b64Char (b2 % 64) :: b64EncodeBytes rest
  | [b0, b1] =>
    [b64Char (b0 / 4), b64Char (b0 % 4 * 16 + b1 / 16), b64Char (b1 % 16 * 4), '=']
  | [b0] =>
    [b64Char (b0 / 4), b64Char (b0 % 4 * 16), '=', '=']
  | [] => []

/-- Strict base64 decoding (`base64.b64decode(s, validate=True)`), quadruple
by quadruple; `none` models `binascii.Error` (bad length, bad character, or
bad padding). -/
def b64DecodeGroups : List Char → Option (List Nat)
  | [] => some []
  | c0 :: c1 :: c2 :: c3 :: rest =>
    match b64Val c0, b64Val c1 with
    | some v0, some v1 =>
      if c2 = '=' then
        if c3 = '=' ∧ rest = [] then some [v0 * 4 + v1 / 16] else none
      else
        match b64Val c2 with
        | some v2 =>
          if c3 = '=' then
            if rest = [] then some [v0 * 4 + v1 / 16, v1 % 16 * 16 + v2 / 4] else none
          else
            match b64Val c3 with
            | some v3 =>
              (b64DecodeGroups rest).map
                (fun t =>
                  (v0 * 4 + v1 / 16) :: (v1 % 16 * 16 + v2 / 4) :: (v2 % 4 * 64 + v3) :: t)
            | none => none
        | none => none
    | _, _ => none
  | _ => none

/-! ### UTF-8 -/

/-- UTF-8 encoding of one Unicode scalar value. -/
def utf8EncodeChar (v : Nat) : List Nat :=
  if v < 0x80 then [v]
  else if v < 0x800 then [0xC0 + v / 64, 0x80 + v % 64]
  else if v < 0x10000 then
    [0xE0 + v / 4096, 0x80 + v / 64 % 64, 0x80 + v % 64]
  else
    [0xF0 + v / 262144, 0x80 + v / 4096 % 64, 0x80 + v / 64 % 64, 0x80 + v % 64]

/-- UTF-8 encoding of a character sequence. -/
def utf8Encode (s : List Char) : List Nat :=
  match s with
  | [] => []
  | c :: cs => utf8EncodeChar c.toNat ++ utf8Encode cs

/-- Strict UTF-8 decoding of a byte sequence, as `bytes.decode('utf-8')`:
`none` models `UnicodeDecodeError` (stray continuation byte, overlong form,
surrogate, value above `U+10FFFF`, or truncated sequence). -/
def utf8Decode : List Nat → Option (List Char)
  | [] => some []
  | b :: rest =>
    if b < 0x80 then (utf8Decode rest).map (fun cs => Char.ofNat b :: cs)
    else if b < 0xC2 then none
    else if b < 0xE0 then
      match rest with
      | [] => none
      | b1 :: rest2 =>
        if 0x80 ≤ b1 ∧ b1 < 0xC0 then
          (utf8Decode rest2).map (fun cs => Char.ofNat ((b - 0xC0) * 64 + (b1 - 0x80)) :: cs)
        else none
    else if b < 0xF0 then
      match rest with
      | [] => none
      | b1 :: rest2 =>
        match rest2 with
        | [] => none
        | b2 :: rest3 =>
          if (if b = 0xE0 then 0xA0 else 0x80) ≤ b1 ∧ (b1 ≤ if b = 0xED then 0x9F else 0xBF) ∧
              0x80 ≤ b2 ∧ b2 < 0xC0 then
            (utf8Decode rest3).map
              (fun cs => Char.ofNat ((b - 0xE0) * 4096 + (b1 - 0x80) * 64 + (b2 - 0x80)) :: cs)
          else none
    else if b < 0xF5 then
      match rest with
      | [] => none
      | b1 :: rest2 =>
        match rest2 with
        | [] => none
        | b2 :: rest3 =>
          match rest3 with
          | [] => none
          | b3 :: rest4 =>
            if (if b = 0xF0 then 0x90 else 0x80) ≤ b1 ∧
                (b1 ≤ if b = 0xF4 then 0x8F else 0xBF) ∧
                0x80 ≤ b2 ∧ b2 < 0xC0 ∧ 0x80 ≤ b3 ∧ b3 < 0xC0 then
              (utf8Decode rest4).map
                (fun cs =>
                  Char.ofNat ((b - 0xF0) * 262144 + (b1 - 0x80) * 4096 + (b2 - 0x80) * 64 +
                    (b3 - 0x80)) :: cs)
            else none
    else none

/-! ### `BasicAuth.decode_base64_authorization_header`

```python
try:
    res = base64.b64decode(base64_authorization_header, validate=True)
    return res.decode('utf-8')
except (binascii.Error, UnicodeDecodeError):
    return None
```

`base64.b64decode` first converts the `str` argument to ASCII bytes; a
non-ASCII character makes it raise `ValueError('string argument should
contain only ASCII characters')`, which is neither a `binascii.Error` (a
strict subclass of `ValueError`) nor a `UnicodeDecodeError`, so it escapes
the `except` clause.  That escaping exception is the `.error ()` result. -/

/-- The method `BasicAuth.decode_base64_authorization_header(base64_authorization_header)`.
A non-string (`None`) argument falls through to `return None`. -/
def decode_base64_authorization_header (base64_authorization_header : Option String) :
    Except Unit (Option String) :=
  match base64_authorization_header with
  | none => .ok none
  | some s =>
    if ∃ c ∈ s.data, 0x80 ≤ c.toNat then .error ()
    else
      match b64DecodeGroups s.data with
      | none => .ok none
      | some bytes =>
        match utf8Decode bytes with
        | none => .ok none
        | some cs => .ok (some (String.mk cs))

example : decode_base64_authorization_header (some "aGk=") = .ok (some "hi") := by decide

example : decode_base64_authorization_header (some "a") = .ok none := by decide

example : decode_base64_authorization_header (some "§a==") = .error () := by decide

example : decode_base64_authorization_header none = .ok none := by decide

/-! ### `BasicAuth.extract_user_credentials`

The source performs
`re.fullmatch(r'(?P<user>[^:]+):(?P<password>.+)', decoded.strip())` and
returns the two groups, or `(None, None)` when the match fails.  A full
match decomposes the stripped text uniquely as a nonempty colon-free `user`
part (the character class `[^:]` also matches a newline), the first `:` of
the text, and a nonempty `password` part containing no newline (`.` does
not match `'\n'`; it does match further `:` characters). -/

/-- The method `BasicAuth.extract_user_credentials(decoded_base64_authorization_header)`.
A non-string (`None`) argument falls through to `return None, None`. -/
def extract_user_credentials (decoded_base64_authorization_header : Option String) :
    Option String × Option String :=
  match decoded_base64_authorization_header with
  | none => (none, none)
  | some s =>
    let l := pyStripList s.data
    let u := l.takeWhile (fun c => c ≠ ':')
    match l.drop u.length with
    | ':' :: p =>
      if u ≠ [] ∧ p ≠ [] ∧ '\n' ∉ p then (some (String.mk u), some (String.mk p))
      else (none, none)
    | _ => (none, none)

example : extract_user_credentials (some "a:b:c") = (some "a", some "b:c") := by decide

example : extract_user_credentials (some "noColon") = (none, none) := by decide

example : extract_user_credentials (some ":pw") = (none, none) := by decide

example : extract_user_credentials (some "a:") = (none, none) := by decide

example : extract_user_credentials (some "a:b:") = (some "a", some "b:") := by decide

example : extract_user_credentials (some "  a:b  ") = (some "a", some "b") := by decide

/-! ### `BasicAuth.user_object_from_credentials`

```python
if type(user_email) == str and type(user_pwd) == str:
    try:
        users = User.search({'email': user_email})
    except Exception:
        return None
    if len(users) <= 0:
        return None
    if users[0].is_valid_password(user_pwd):
        return users[0]
return None
```

The external collaborators are made explicit: the outcome of
`User.search({'email': user_email})` (which may raise, modelled by
`.error ()`) is the `search` parameter, and `is_valid_password` is the
`is_valid_password` parameter.  Note the source keeps `users[0]` whenever
the search returns at least one record; it has no multiple-match branch. -/

/-- The method `BasicAuth.user_object_from_credentials(user_email, user_pwd)`, generic
in the user record type `α`. -/
def user_object_from_credentials {α : Type} (user_email user_pwd : Option String)
    (search : String → Except Unit (List α)) (is_valid_password : α → String → Bool) :
    Option α :=
  match user_email, user_pwd with
  | some e, some p =>
    match search e with
    | .error _ => none
    | .ok users =>
      match users with
      | [] => none
      | u :: _ => if is_valid_password u p then some u else none
  | _, _ => none

example :
    user_object_from_credentials (some "e") (some "p")
      (fun _ => .ok ["u1", "u2"]) (fun _ _ => true) = some "u1" := by decide

example :
    user_object_from_credentials (some "e") (some "p")
      (fun _ => .error ()) (fun _ _ => true) = (none : Option String) := by decide

/-! ### `BasicAuth.current_user`

```python
auth_header = self.authorization_header(request)
b64_auth_token = self.extract_base64_authorization_header(auth_header)
auth_token = self.decode_base64_authorization_header(b64_auth_token)
email, password = self.extract_user_credentials(auth_token)
return self.user_object_from_credentials(email, password)
```

`authorization_header` merely reads the `Authorization` header of the
request, so the chain is modelled as a function of that header value.  An
exception escaping `decode_base64_authorization_header` propagates out of
`current_user`, hence the `Except` result. -/

/-- The method `BasicAuth.current_user(request)`, as a function of the request's
`Authorization` header and of the user-lookup collaborators. -/
def basic_current_user {α : Type} (authorization_header : Option String)
    (search : String → Except Unit (List α)) (is_valid_password : α → String → Bool) :
    Except Unit (Option α) :=
  match decode_base64_authorization_header
      (extract_base64_authorization_header authorization_header) with
  | .error e => .error e
  | .ok tok =>
    let c := extract_user_credentials tok
    .ok (user_object_from_credentials c.1 c.2 search is_valid_password)

example :
    basic_current_user (some "Basic ¤x") (fun _ => .ok ["u"]) (fun _ _ => true) =
      .error () := by decide

example :
    basic_current_user none (fun _ => .ok ["u"]) (fun _ _ => true) = .ok none := by decide

/-! ### `SessionExpAuth.user_id_for_session_id` and
`SessionDBAuth.user_id_for_session_id`

Clock instants are integers (seconds); `timedelta(seconds=d)` is the
integer `d` (the configured `session_duration`, an `int` that may be zero
or negative).  The in-memory store entry written by
`SessionExpAuth.create_session` is the dictionary
`{'user_id': ..., 'created_at': ...}`; the possible absence of the
`'created_at'` key (checked by the source) is an `Option`. -/

/-- The in-memory session dictionary of `SessionExpAuth`. -/
structure SessionDict where
  user_id : String
  created_at : Option Int
deriving DecidableEq, Repr

/-- A durable `UserSession` record, with the fields
`SessionDBAuth.user_id_for_session_id` reads. -/
structure UserSession where
  user_id : String
  created_at : Int
deriving DecidableEq, Repr

/-- The method `SessionExpAuth.user_id_for_session_id(session_id)`, as a function of
the store entry for that session id (`none` when
`session_id not in self.user_id_by_session_id`, which skips the whole body
and returns `None`), of `self.session_duration`, and of the current time
`datetime.now()`:

```python
if session_id in self.user_id_by_session_id:
    session_dict = self.user_id_by_session_id[session_id]
    if self.session_duration <= 0:
        return session_dict['user_id']
    if 'created_at' not in session_dict:
        return None
    cur_time = datetime.now()
    time_span = timedelta(seconds=self.session_duration)
    exp_time = session_dict['created_at'] + time_span
    if exp_time < cur_time:
        return None
    return session_dict['user_id']
``` -/
def sessionExp_user_id_for_session_id (session_duration : Int)
    (entry : Option SessionDict) (now : Int) : Option String :=
  match entry with
  | none => none
  | some d =>
    if session_duration ≤ 0 then some d.user_id
    else
      match d.created_at with
      | none => none
      | some ca => if ca + session_duration < now then none else some d.user_id

/-- The method `SessionDBAuth.user_id_for_session_id(session_id)`, as a function of the
outcome of `UserSession.search({'session_id': session_id})` (`.error ()`
when the search raises), of `self.session_duration`, and of the current
time:

```python
try:
    sessions = UserSession.search({'session_id': session_id})
except Exception:
    return None
if len(sessions) <= 0:
    return None
cur_time = datetime.now()
time_span = timedelta(seconds=self.session_duration)
exp_time = sessions[0].created_at + time_span
if exp_time < cur_time:
    return None
return sessions[0].user_id
```

Unlike `SessionExpAuth`, there is no `session_duration <= 0` branch: the
expiry comparison is always performed. -/
def sessionDB_user_id_for_session_id (session_duration : Int)
    (search : Except Unit (List UserSession)) (now : Int) : Option String :=
  match search with
  | .error _ => none
  | .ok sessions =>
    match sessions with
    | [] => none
    | s :: _ => if s.created_at + session_duration < now then none else some s.user_id

example : sessionExp_user_id_for_session_id 0 (some ⟨"u", some 100⟩) 101 = some "u" := by
  decide

example : sessionDB_user_id_for_session_id 0 (.ok [⟨"u", 100⟩]) 101 = none := by decide

example : sessionDB_user_id_for_session_id 5 (.ok [⟨"u", 100⟩]) 105 = some "u" := by decide

example : sessionDB_user_id_for_session_id 5 (.ok [⟨"u", 100⟩]) 106 = none := by decide

/-! ### Helper lemmas about the string primitives -/

/-- The regex metacharacters.  An exclusion entry avoiding all of them
denotes itself literally inside the patterns `require_auth` builds. -/
def regexMeta : List Char :=
  ['.', '*', '+', '?', '(', ')', '[', ']', '\x7b', '\x7d', '^', '$', '|', '\\']

theorem String.data_ne_nil {p : String} (h : p ≠ "") : p.data ≠ [] :=
  fun hd => h (String.ext hd)

theorem rstripList_append_singleton (l : List Char) (c : Char)
    (h : pyIsSpace c = false) : rstripList (l ++ [c]) = l ++ [c] := by
  induction l with
  | nil => simp [rstripList, h]
  | cons c' t ih =>
    have hne : t ++ [c] ≠ [] := by simp
    simp only [List.cons_append, rstripList]
    simp [ih, hne]

theorem rstripList_append_ws (l : List Char) (c : Char)
    (h : pyIsSpace c = true) : rstripList (l ++ [c]) = rstripList l := by
  induction l with
  | nil => simp [rstripList, h]
  | cons c' t ih =>
    simp only [List.cons_append, rstripList]
    simp [ih]

theorem rstrip_sublist (l : List Char) : rstripList l <+: l := by
  induction l with
  | nil => simp [rstripList]
  | cons c t ih =>
    simp only [rstripList]
    by_cases h : rstripList t = []
    · simp only [h, if_pos]
      by_cases hc : pyIsSpace c
      · simp [hc]
      · simp [hc]
    · simp only [h, if_neg]
      exact (List.prefix_cons_inj c).mpr ih

theorem takeWhile_ne_colon (u rest : List Char) (hu : ':' ∉ u) :
    (u ++ ':' :: rest).takeWhile (fun c => decide (c ≠ ':')) = u := by
  induction u with
  | nil => simp [List.takeWhile_cons]
  | cons c t ih =>
    have hc : c ≠ ':' := fun h => hu (h ▸ List.mem_cons_self c t)
    have ht : ':' ∉ t := fun h => hu (List.mem_cons_of_mem c h)
    simp only [List.cons_append, List.takeWhile_cons]
    simpa [hc] using ih ht

/-! ### Helper lemmas about the regex fragment -/

theorem compileAux_lit_append (l suffix : List Char)
    (h : ∀ c ∈ l, c ≠ '.' ∧ c ≠ '*') (hs : suffix.head? ≠ some '*') :
    compileAux (l ++ suffix) = l.map RTok.lit ++ compileAux suffix := by
  induction l with
  | nil => simp
  | cons c t ih =>
    have hc := h c (List.mem_cons_self c t)
    have ih' := ih (fun x hx => h x (List.mem_cons_of_mem c hx))
    cases t with
    | nil =>
      cases suffix with
      | nil => simp [compileAux, hc.1]
      | cons s0 s' =>
        have hs0 : s0 ≠ '*' := by
          intro hcontra
          exact hs (by simp [hcontra])
        simp [compileAux, hc.1, hs0]
    | cons c1 t' =>
      have h1 := h c1 (by simp)
      simp only [List.cons_append] at ih' ⊢
      simpa [compileAux, hc.1, h1.2] using ih'

theorem rmatch_lit_append (l : List Char) (ts : List RTok) (xs : List Char) :
    rmatch (l.map RTok.lit ++ ts) (l ++ xs) = rmatch ts xs := by
  induction l with
  | nil => simp
  | cons c t ih => simp [rmatch, ih]

/-! ### Claim theorems: path-exclusion matching -/

/-- C1.  The trailing-slash exclusion pattern `/api/v1/status/` becomes the
regex `/api/v1/status/*`, in which `*` quantifies the preceding `/`
(zero-or-more slashes) and which `re.match` does not anchor at the end of
the path, so it excludes not only `/api/v1/status/` and
`/api/v1/status/anything` but also `/api/v1/statuses`: `require_auth`
returns `False` (here `.ok false`) on all three paths, while the claim
expects `True` on the third one. -/
theorem claim_C1 :
    require_auth (some "/api/v1/status/") (some ["/api/v1/status/"]) = .ok false ∧
    require_auth (some "/api/v1/status/anything") (some ["/api/v1/status/"]) = .ok false ∧
    require_auth (some "/api/v1/statuses") (some ["/api/v1/status/"]) = .ok false := by
  decide

/-- C2, counterexample.  A path exactly equal to a pattern that ends
neither in `*` nor in `/` is excluded: `require_auth("/a", ["/a"])` returns
`False`, not `True` as the claim states. -/
theorem claim_C2_cex :
    require_auth (some "/a") (some ["/a"]) = .ok false ∧
    require_auth (some "/a") (some ["/a"]) ≠ .ok true := by decide

/-- C2, amended.  For every exclusion pattern `p` that is already stripped,
nonempty, free of regex metacharacters and ends neither in `*` nor in `/`,
`require_auth` applied to a path exactly equal to the pattern returns
`False` (the path is excluded): the built regex `p/*` lets `*` absorb zero
slashes, so the bare pattern itself already matches. -/
theorem claim_C2 (p : String) (hstrip : pyStrip p = p) (hne : p ≠ "")
    (hmeta : ∀ c ∈ p.data, c ∉ regexMeta)
    (hstar : p.data.getLastD ' ' ≠ '*') (hslash : p.data.getLastD ' ' ≠ '/') :
    require_auth (some p) (some [p]) = .ok false := by
  have hd : pyStripList p.data = p.data := congrArg String.data hstrip
  have hne' : p.data ≠ [] := String.data_ne_nil hne
  show requireAuthGo p.data [p] = .ok false
  rw [requireAuthGo]
  simp only [hd, if_neg hne']
  have hmatch : matchesPath p.data p.data = true := by
    unfold matchesPath buildPattern
    rw [if_neg hstar, if_neg hslash]
    rw [compileAux_lit_append p.data ['/', '*']
      (fun c hc => ⟨fun h => hmeta c hc (h ▸ by simp [regexMeta]),
                    fun h => hmeta c hc (h ▸ by simp [regexMeta])⟩)
      (by simp)]
    have : compileAux ['/', '*'] = [RTok.star '/'] := by decide
    rw [this]
    have := rmatch_lit_append p.data [RTok.star '/'] []
    rw [List.append_nil] at this
    rw [this]
    simp [rmatch, starMatch]
  simp [hmatch]

/-- C2, witness for the amended theorem at the concrete pattern `/users`. -/
theorem claim_C2_witness :
    require_auth (some "/users") (some ["/users"]) = .ok false :=
  claim_C2 "/users" (by decide) (by decide) (by decide) (by decide) (by decide)

/-- C9, counterexample.  An exclusion list containing an empty entry does
not always raise: entries are examined in order and a match returns `False`
before the empty entry is reached, so
`require_auth("/a", ["/a", ""])` returns `.ok false`, not an error. -/
theorem claim_C9_cex :
    require_auth (some "/a") (some ["/a", ""]) = .ok false ∧
    require_auth (some "/a") (some ["/a", ""]) ≠ .error () := by decide

/-- C9, amended.  For every non-null path and every exclusion list in which
some entry strips to the empty string and every earlier entry strips to a
nonempty string that is free of regex metacharacters (so the entry denotes
itself literally inside the built pattern, where the model and `re.match`
agree) and whose pattern fails to match the path, `require_auth` raises
`IndexError` (modelled `.error ()`): the stripped entry is indexed at its
last character with no length guard. -/
theorem claim_C9 (path : String) (pre : List String) (e : String) (post : List String)
    (hpre : ∀ x ∈ pre, pyStripList x.data ≠ [] ∧
      (∀ c ∈ pyStripList x.data, c ∉ regexMeta) ∧
      matchesPath (pyStripList x.data) path.data = false)
    (he : pyStripList e.data = []) :
    require_auth (some path) (some (pre ++ e :: post)) = .error () := by
  show requireAuthGo path.data (pre ++ e :: post) = .error ()
  induction pre with
  | nil => simp [requireAuthGo, he]
  | cons x t ih =>
    have hx := hpre x (List.mem_cons_self x t)
    rw [List.cons_append, requireAuthGo]
    simp only [if_neg hx.1, hx.2.2, if_neg]
    exact ih (fun y hy => hpre y (List.mem_cons_of_mem x hy))

/-- C9, witness for the amended theorem: a non-matching first entry followed
by a whitespace-only entry raises. -/
theorem claim_C9_witness :
    require_auth (some "/x") (some ["/y", " "]) = .error () :=
  claim_C9 "/x" ["/y"] " " [] (by decide) (by decide)

/-! ### Helper lemmas for the credential splitter -/

theorem rstripList_eq_self (l : List Char)
    (h : pyIsSpace (l.getLastD 'x') = false) : rstripList l = l := by
  rcases l.eq_nil_or_concat with rfl | ⟨l', c, rfl⟩
  · rfl
  · simp only [List.concat_eq_append] at h ⊢
    have hc : pyIsSpace c = false := by
      rw [List.getLastD_concat] at h
      exact h
    exact rstripList_append_singleton l' c hc

theorem pyStripList_eq_self (l : List Char)
    (h1 : pyIsSpace (l.headD 'x') = false)
    (h2 : pyIsSpace (l.getLastD 'x') = false) : pyStripList l = l := by
  cases l with
  | nil => rfl
  | cons c t =>
    unfold pyStripList
    rw [List.dropWhile_cons]
    simp only [List.headD_cons] at h1
    rw [h1]
    simp only [Bool.false_eq_true, if_neg, ite_false]
    exact rstripList_eq_self _ h2

theorem takeWhile_of_no_colon (l : List Char) (h : ':' ∉ l) :
    l.takeWhile (fun c => decide (c ≠ ':')) = l := by
  simp only [List.takeWhile_eq_self_iff]
  intro x hx
  have hx' : x ≠ ':' := fun hcontra => h (hcontra ▸ hx)
  simp [hx']

/-- The normal-form evaluation of `extract_user_credentials` when the
stripped text splits as a colon-free nonempty identifier, the first colon,
and a nonempty newline-free secret. -/
theorem extract_eq_of_strip (s u p : String)
    (hs : pyStripList s.data = u.data ++ ':' :: p.data)
    (hu : u.data ≠ []) (hp : p.data ≠ []) (hcolu : ':' ∉ u.data)
    (hnl : '\n' ∉ p.data) :
    extract_user_credentials (some s) = (some u, some p) := by
  show (let l := pyStripList s.data
        let w := l.takeWhile (fun c => c ≠ ':')
        match l.drop w.length with
        | ':' :: q =>
          if w ≠ [] ∧ q ≠ [] ∧ '\n' ∉ q then (some (String.mk w), some (String.mk q))
          else (none, none)
        | _ => (none, none)) = (some u, some p)
  simp only [hs, takeWhile_ne_colon u.data p.data hcolu, List.drop_left]
  simp [hu, hp, hnl]

/-- The stripped form of the text when the secret is absent (`none` cases
come from the `if`-guard of the match arm or from the missing colon). -/
theorem extract_none_of_no_colon (s : String) (h : ':' ∉ s.data) :
    extract_user_credentials (some s) = (none, none) := by
  have hsub : ':' ∉ pyStripList s.data := by
    intro hmem
    exact h ((List.dropWhile_sublist pyIsSpace).subset
      ((rstrip_sublist (s.data.dropWhile pyIsSpace)).subset hmem))
  show (let l := pyStripList s.data
        let w := l.takeWhile (fun c => c ≠ ':')
        match l.drop w.length with
        | ':' :: q =>
          if w ≠ [] ∧ q ≠ [] ∧ '\n' ∉ q then (some (String.mk w), some (String.mk q))
          else (none, none)
        | _ => (none, none)) = (none, none)
  simp only [takeWhile_of_no_colon _ hsub, List.drop_length]

/-! ### Claim theorems: credential splitting -/

/-- C7, counterexample.  The decoded text `"a:"` has a first colon with the
empty string after it; the claim says the split is `("a", "")`, but the
source regex requires a nonempty secret, so the result is `(None, None)`. -/
theorem claim_C7_cex :
    extract_user_credentials (some "a:") = (none, none) ∧
    extract_user_credentials (some "a:") ≠ (some "a", some "") := by decide

/-- C7, amended.  `extract_user_credentials` splits the stripped decoded
text at its first `:` provided both resulting components are nonempty, the
identifier is taken before the first colon (the secret may contain further
colons), the secret contains no newline and the text carries no surrounding
whitespace; text without any `:` yields `(none, none)`; `"a:b:c"` maps to
`("a", "b:c")` and `"noColon"` to `(none, none)`. -/
theorem claim_C7 :
    (∀ u p : String, u ≠ "" → p ≠ "" → ':' ∉ u.data → '\n' ∉ p.data →
      pyIsSpace (u.data.headD 'x') = false → pyIsSpace (p.data.getLastD 'x') = false →
      extract_user_credentials (some (u ++ ":" ++ p)) = (some u, some p)) ∧
    (∀ s : String, ':' ∉ s.data → extract_user_credentials (some s) = (none, none)) ∧
    extract_user_credentials (some "a:b:c") = (some "a", some "b:c") ∧
    extract_user_credentials (some "noColon") = (none, none) := by
  refine ⟨?_, fun s h => extract_none_of_no_colon s h, by decide, by decide⟩
  intro u p hu hp hcolu hnl hh hl
  have hu' : u.data ≠ [] := String.data_ne_nil hu
  have hp' : p.data ≠ [] := String.data_ne_nil hp
  apply extract_eq_of_strip _ u p _ hu' hp' hcolu hnl
  have hdata : (u ++ ":" ++ p).data = u.data ++ ':' :: p.data := by
    simp [String.data_append]
  rw [hdata]
  apply pyStripList_eq_self
  · cases hud : u.data with
    | nil => exact absurd hud hu'
    | cons c t =>
      rw [hud] at hh
      simpa using hh
  · have hassoc : u.data ++ ':' :: p.data = (u.data ++ [':']) ++ p.data := by simp
    rw [hassoc, List.getLastD_eq_getLast? 'x',
      List.getLast?_append_of_ne_nil (u.data ++ [':']) hp',
      ← List.getLastD_eq_getLast? 'x']
    exact hl

/-- C7, witness for the amended theorem at a secret containing a colon. -/
theorem claim_C7_witness :
    extract_user_credentials (some ("user" ++ ":" ++ "pa:ss")) = (some "user", some "pa:ss") :=
  claim_C7.1 "user" "pa:ss" (by decide) (by decide) (by decide) (by decide)
    (by decide) (by decide)

/-! ### Claim C10 -/

theorem getLastD_split (u p : String) (hp' : p.data ≠ []) :
    (u.data ++ ':' :: p.data).getLastD 'x' = p.data.getLastD 'x' := by
  have hassoc : u.data ++ ':' :: p.data = (u.data ++ [':']) ++ p.data := by simp
  rw [hassoc, List.getLastD_eq_getLast? 'x',
    List.getLast?_append_of_ne_nil (u.data ++ [':']) hp',
    ← List.getLastD_eq_getLast? 'x']

theorem pyStripList_head_of_ne (c : Char) (t : List Char) (hc : pyIsSpace c = false) :
    ∃ r, pyStripList (c :: t) = c :: r := by
  unfold pyStripList
  rw [List.dropWhile_cons]
  simp only [hc, Bool.false_eq_true, ite_false]
  by_cases hr : rstripList t = []
  · exact ⟨[], by simp [rstripList, hr, hc]⟩
  · exact ⟨rstripList t, by simp [rstripList, hr]⟩

/-- C10, counterexample.  Decoded text ending with a `:` does not always
yield `(none, none)`: the split happens at the first colon, so `"a:b:"`
yields `("a", "b:")` — the trailing colon merely ends up inside the secret. -/
theorem claim_C10_cex :
    extract_user_credentials (some "a:b:") = (some "a", some "b:") ∧
    extract_user_credentials (some "a:b:") ≠ (none, none) := by decide

/-- C10, amended.  `extract_user_credentials` strips surrounding whitespace
and requires both components nonempty: text whose first character is `:`
(empty identifier) yields `(none, none)`, text whose first colon is its
final character (empty secret) yields `(none, none)`, and a well-formed
credential pair surrounded by whitespace is returned trimmed rather than
verbatim. -/
theorem claim_C10 :
    (∀ s : String, s.data.head? = some ':' →
      extract_user_credentials (some s) = (none, none)) ∧
    (∀ (s : String) (w : List Char), pyStripList s.data = w ++ [':'] → ':' ∉ w →
      extract_user_credentials (some s) = (none, none)) ∧
    (∀ u p : String, u ≠ "" → p ≠ "" → ':' ∉ u.data → '\n' ∉ p.data →
      pyIsSpace (u.data.headD 'x') = false → pyIsSpace (p.data.getLastD 'x') = false →
      extract_user_credentials (some (" " ++ u ++ ":" ++ p ++ " ")) = (some u, some p)) := by
  refine ⟨?_, ?_, ?_⟩
  · intro s hhead
    obtain ⟨t, hsd⟩ : ∃ t, s.data = ':' :: t := by
      cases h' : s.data with
      | nil => rw [h'] at hhead; cases hhead
      | cons a b =>
        rw [h'] at hhead
        simp only [List.head?_cons, Option.some.injEq] at hhead
        exact ⟨b, by rw [hhead]⟩
    obtain ⟨r, hr⟩ := pyStripList_head_of_ne ':' t (by decide)
    have hs' : pyStripList s.data = ':' :: r := by rw [hsd]; exact hr
    show (let l := pyStripList s.data
          let w := l.takeWhile (fun c => c ≠ ':')
          match l.drop w.length with
          | ':' :: q =>
            if w ≠ [] ∧ q ≠ [] ∧ '\n' ∉ q then (some (String.mk w), some (String.mk q))
            else (none, none)
          | _ => (none, none)) = (none, none)
    simp [hs', List.takeWhile_cons]
  · intro s w hs hw
    have hs' : pyStripList s.data = w ++ ':' :: [] := hs
    show (let l := pyStripList s.data
          let w' := l.takeWhile (fun c => c ≠ ':')
          match l.drop w'.length with
          | ':' :: q =>
            if w' ≠ [] ∧ q ≠ [] ∧ '\n' ∉ q then (some (String.mk w'), some (String.mk q))
            else (none, none)
          | _ => (none, none)) = (none, none)
    simp only [hs', takeWhile_ne_colon w [] hw, List.drop_left]
    simp
  · intro u p hu hp hcolu hnl hh hl
    have hu' : u.data ≠ [] := String.data_ne_nil hu
    have hp' : p.data ≠ [] := String.data_ne_nil hp
    obtain ⟨c, t, hud⟩ : ∃ c t, u.data = c :: t := by
      cases h' : u.data with
      | nil => exact absurd h' hu'
      | cons a b => exact ⟨a, b, rfl⟩
    have hc : pyIsSpace c = false := by rw [hud] at hh; simpa using hh
    apply extract_eq_of_strip _ u p _ hu' hp' hcolu hnl
    have hdata : (" " ++ u ++ ":" ++ p ++ " ").data
        = ' ' :: ((u.data ++ ':' :: p.data) ++ [' ']) := by
      simp [String.data_append]
    rw [hdata]
    unfold pyStripList
    have h1 : (' ' :: ((u.data ++ ':' :: p.data) ++ [' '])).dropWhile pyIsSpace
        = ((u.data ++ ':' :: p.data) ++ [' ']).dropWhile pyIsSpace := by
      rw [List.dropWhile_cons]
      simp [show pyIsSpace ' ' = true from by decide]
    have h2 : ((u.data ++ ':' :: p.data) ++ [' ']).dropWhile pyIsSpace
        = (u.data ++ ':' :: p.data) ++ [' '] := by
      rw [hud, List.cons_append, List.cons_append, List.dropWhile_cons]
      simp [hc]
    rw [h1, h2, rstripList_append_ws _ _ (by decide)]
    exact rstripList_eq_self _ (by rw [getLastD_split u p hp']; exact hl)

/-- C10, witness exercising all three amended conjuncts at concrete
inputs. -/
theorem claim_C10_witness :
    extract_user_credentials (some ":x") = (none, none) ∧
    extract_user_credentials (some "ab:") = (none, none) ∧
    extract_user_credentials (some (" " ++ "ab" ++ ":" ++ "cd" ++ " ")) =
      (some "ab", some "cd") :=
  ⟨claim_C10.1 ":x" (by decide),
   claim_C10.2.1 "ab:" "ab".data (by decide) (by decide),
   claim_C10.2.2 "ab" "cd" (by decide) (by decide) (by decide) (by decide)
     (by decide) (by decide)⟩

/-! ### Claim theorems: session expiry and lookups -/

/-- C3.  `SessionDBAuth.user_id_for_session_id` does not make the same
expiry decision as `SessionExpAuth.user_id_for_session_id` on equal stored
data: it lacks the `session_duration <= 0` short-circuit, so with duration
`0`, a record created at time `100` and the clock at `101`, the durable
variant computes `exp_time = 100 < 101` and returns `None` while the
in-memory variant returns the stored user id unconditionally. -/
theorem claim_C3 :
    sessionDB_user_id_for_session_id 0 (.ok [⟨"u1", 100⟩]) 101 = none ∧
    sessionExp_user_id_for_session_id 0 (some ⟨"u1", some 100⟩) 101 = some "u1" := by
  decide

/-- C4.  A session stored by `SessionDBAuth` with configured duration `≤ 0`
does expire, contrary to the never-expires contract: with duration `-1`,
`created_at = 200` and the clock at `1000` the durable lookup returns
`None`, while `SessionExpAuth` honours the contract and returns the user
id. -/
theorem claim_C4 :
    sessionDB_user_id_for_session_id (-1) (.ok [⟨"u2", 200⟩]) 1000 = none ∧
    sessionExp_user_id_for_session_id (-1) (some ⟨"u2", some 200⟩) 1000 = some "u2" := by
  decide

/-- C5, counterexample.  A lookup returning more than one match does not
yield `none`: `user_object_from_credentials` keeps `users[0]` (returning it
when its password validates), and `SessionDBAuth.user_id_for_session_id`
keeps `sessions[0]`. -/
theorem claim_C5_cex :
    user_object_from_credentials (some "a@b.c") (some "pwd")
      (fun _ => .ok ["u1", "u2"]) (fun _ _ => true) = some "u1" ∧
    user_object_from_credentials (some "a@b.c") (some "pwd")
      (fun _ => .ok ["u1", "u2"]) (fun _ _ => true) ≠ none ∧
    sessionDB_user_id_for_session_id 10 (.ok [⟨"ua", 50⟩, ⟨"ub", 60⟩]) 55 = some "ua" ∧
    sessionDB_user_id_for_session_id 10 (.ok [⟨"ua", 50⟩, ⟨"ub", 60⟩]) 55 ≠ none := by
  decide

/-- C5, amended.  Both lookups collapse a raising search and an empty
result to `none`; a search returning several records is treated exactly
like a search returning only its first record (no ambiguity rejection). -/
theorem claim_C5 :
    (∀ (e p : Option String) (valid : String → String → Bool),
      user_object_from_credentials e p
        (fun _ => (.error () : Except Unit (List String))) valid = none) ∧
    (∀ (e p : Option String) (valid : String → String → Bool),
      user_object_from_credentials e p (fun _ => .ok ([] : List String)) valid = none) ∧
    (∀ (e p : Option String) (valid : String → String → Bool) (u : String)
        (us : List String),
      user_object_from_credentials e p (fun _ => .ok (u :: us)) valid =
        user_object_from_credentials e p (fun _ => .ok [u]) valid) ∧
    (∀ d now : Int, sessionDB_user_id_for_session_id d (.error ()) now = none) ∧
    (∀ d now : Int, sessionDB_user_id_for_session_id d (.ok []) now = none) ∧
    (∀ (d now : Int) (s : UserSession) (ss : List UserSession),
      sessionDB_user_id_for_session_id d (.ok (s :: ss)) now =
        sessionDB_user_id_for_session_id d (.ok [s]) now) := by
  refine ⟨?_, ?_, ?_, ?_, ?_, ?_⟩
  · intro e p valid; cases e <;> cases p <;> rfl
  · intro e p valid; cases e <;> cases p <;> rfl
  · intro e p valid u us; cases e <;> cases p <;> rfl
  · intro d now; rfl
  · intro d now; rfl
  · intro d now s ss; rfl

/-! ### Round-trip lemmas for base64 and UTF-8 -/

theorem b64Val_b64Char : ∀ i < 64, b64Val (b64Char i) = some i := by decide

theorem b64Char_ne_pad : ∀ i < 64, b64Char i ≠ '=' := by decide

theorem b64Char_ascii : ∀ i < 64, (b64Char i).toNat < 0x80 := by decide

theorem b64_roundtrip_aux :
    ∀ (n : Nat) (bs : List Nat), bs.length ≤ n → (∀ b ∈ bs, b < 256) →
      b64DecodeGroups (b64EncodeBytes bs) = some bs := by
  intro n
  induction n with
  | zero =>
    intro bs hlen _
    have : bs = [] := List.eq_nil_of_length_eq_zero (Nat.le_zero.mp hlen)
    subst this
    rfl
  | succ n ih =>
    intro bs hlen hb
    rcases bs with _ | ⟨b0, _ | ⟨b1, _ | ⟨b2, rest⟩⟩⟩
    · rfl
    · have h0 : b0 < 256 := hb b0 (by simp)
      have e0 : b64Val (b64Char (b0 / 4)) = some (b0 / 4) := b64Val_b64Char _ (by omega)
      have e1 : b64Val (b64Char (b0 % 4 * 16)) = some (b0 % 4 * 16) :=
        b64Val_b64Char _ (by omega)
      have hx : b0 / 4 * 4 + b0 % 4 * 16 / 16 = b0 := by omega
      simp only [b64EncodeBytes, b64DecodeGroups, e0, e1]
      rw [if_pos trivial, if_pos ⟨trivial, trivial⟩, hx]
    · have h0 : b0 < 256 := hb b0 (by simp)
      have h1 : b1 < 256 := hb b1 (by simp)
      have e0 : b64Val (b64Char (b0 / 4)) = some (b0 / 4) := b64Val_b64Char _ (by omega)
      have e1 : b64Val (b64Char (b0 % 4 * 16 + b1 / 16)) = some (b0 % 4 * 16 + b1 / 16) :=
        b64Val_b64Char _ (by omega)
      have e2 : b64Val (b64Char (b1 % 16 * 4)) = some (b1 % 16 * 4) :=
        b64Val_b64Char _ (by omega)
      have ne2 : b64Char (b1 % 16 * 4) ≠ '=' := b64Char_ne_pad _ (by omega)
      have hx : b0 / 4 * 4 + (b0 % 4 * 16 + b1 / 16) / 16 = b0 := by omega
      have hy : (b0 % 4 * 16 + b1 / 16) % 16 * 16 + b1 % 16 * 4 / 4 = b1 := by omega
      simp only [b64EncodeBytes, b64DecodeGroups, e0, e1, e2, if_neg ne2]
      rw [if_pos trivial, if_pos trivial, hx, hy]
    · have h0 : b0 < 256 := hb b0 (by simp)
      have h1 : b1 < 256 := hb b1 (by simp)
      have h2 : b2 < 256 := hb b2 (by simp)
      have hrest : ∀ b ∈ rest, b < 256 := fun b hbr => hb b (by simp [hbr])
      have hlen' : rest.length ≤ n := by
        simp only [List.length_cons] at hlen
        omega
      have e0 : b64Val (b64Char (b0 / 4)) = some (b0 / 4) := b64Val_b64Char _ (by omega)
      have e1 : b64Val (b64Char (b0 % 4 * 16 + b1 / 16)) = some (b0 % 4 * 16 + b1 / 16) :=
        b64Val_b64Char _ (by omega)
      have e2 : b64Val (b64Char (b1 % 16 * 4 + b2 / 64)) = some (b1 % 16 * 4 + b2 / 64) :=
        b64Val_b64Char _ (by omega)
      have e3 : b64Val (b64Char (b2 % 64)) = some (b2 % 64) := b64Val_b64Char _ (by omega)
      have ne2 : b64Char (b1 % 16 * 4 + b2 / 64) ≠ '=' := b64Char_ne_pad _ (by omega)
      have ne3 : b64Char (b2 % 64) ≠ '=' := b64Char_ne_pad _ (by omega)
      have hx : b0 / 4 * 4 + (b0 % 4 * 16 + b1 / 16) / 16 = b0 := by omega
      have hy : (b0 % 4 * 16 + b1 / 16) % 16 * 16 + (b1 % 16 * 4 + b2 / 64) / 4 = b1 := by
        omega
      have hz : (b1 % 16 * 4 + b2 / 64) % 4 * 64 + b2 % 64 = b2 := by omega
      simp only [b64EncodeBytes, b64DecodeGroups, e0, e1, e2, e3, if_neg ne2, if_neg ne3]
      rw [ih rest hlen' hrest]
      simp only [Option.map_some']
      rw [hx, hy, hz]

theorem b64_roundtrip (bs : List Nat) (h : ∀ b ∈ bs, b < 256) :
    b64DecodeGroups (b64EncodeBytes bs) = some bs :=
  b64_roundtrip_aux bs.length bs le_rfl h

theorem b64Encode_ascii_aux :
    ∀ (n : Nat) (bs : List Nat), bs.length ≤ n → (∀ b ∈ bs, b < 256) →
      ∀ c ∈ b64EncodeBytes bs, c.toNat < 0x80 := by
  intro n
  induction n with
  | zero =>
    intro bs hlen _
    have : bs = [] := List.eq_nil_of_length_eq_zero (Nat.le_zero.mp hlen)
    subst this
    simp [b64EncodeBytes]
  | succ n ih =>
    intro bs hlen hb c hc
    rcases bs with _ | ⟨b0, _ | ⟨b1, _ | ⟨b2, rest⟩⟩⟩
    · simp [b64EncodeBytes] at hc
    · have h0 : b0 < 256 := hb b0 (by simp)
      simp only [b64EncodeBytes, List.mem_cons, List.not_mem_nil, or_false] at hc
      rcases hc with rfl | rfl | rfl | rfl
      · exact b64Char_ascii _ (by omega)
      · exact b64Char_ascii _ (by omega)
      · decide
      · decide
    · have h0 : b0 < 256 := hb b0 (by simp)
      have h1 : b1 < 256 := hb b1 (by simp)
      simp only [b64EncodeBytes, List.mem_cons, List.not_mem_nil, or_false] at hc
      rcases hc with rfl | rfl | rfl | rfl
      · exact b64Char_ascii _ (by omega)
      · exact b64Char_ascii _ (by omega)
      · exact b64Char_ascii _ (by omega)
      · decide
    · have h0 : b0 < 256 := hb b0 (by simp)
      have h1 : b1 < 256 := hb b1 (by simp)
      have h2 : b2 < 256 := hb b2 (by simp)
      have hrest : ∀ b ∈ rest, b < 256 := fun b hbr => hb b (by simp [hbr])
      have hlen' : rest.length ≤ n := by
        simp only [List.length_cons] at hlen
        omega
      simp only [b64EncodeBytes, List.mem_cons] at hc
      rcases hc with rfl | rfl | rfl | rfl | hc
      · exact b64Char_ascii _ (by omega)
      · exact b64Char_ascii _ (by omega)
      · exact b64Char_ascii _ (by omega)
      · exact b64Char_ascii _ (by omega)
      · exact ih rest hlen' hrest c hc

theorem b64Encode_ascii (bs : List Nat) (h : ∀ b ∈ bs, b < 256) :
    ∀ c ∈ b64EncodeBytes bs, c.toNat < 0x80 :=
  b64Encode_ascii_aux bs.length bs le_rfl h

theorem utf8EncodeChar_lt (v : Nat) (hv : v < 0x110000) :
    ∀ b ∈ utf8EncodeChar v, b < 256 := by
  intro b hb
  unfold utf8EncodeChar at hb
  split_ifs at hb <;> simp at hb <;> omega

theorem char_valid_range (c : Char) :
    c.toNat < 0xd800 ∨ (0xdfff < c.toNat ∧ c.toNat < 0x110000) := by
  rcases c.valid with h | h
  · exact Or.inl h
  · exact Or.inr h

theorem utf8Encode_lt (l : List Char) : ∀ b ∈ utf8Encode l, b < 256 := by
  induction l with
  | nil => simp [utf8Encode]
  | cons c cs ih =>
    intro b hb
    simp only [utf8Encode, List.mem_append] at hb
    rcases hb with h | h
    · have hv : c.toNat < 0x110000 := by
        rcases char_valid_range c with h' | h' <;> omega
      exact utf8EncodeChar_lt _ hv b h
    · exact ih b h

theorem utf8Decode_encodeChar (c : Char) (rest : List Nat) :
    utf8Decode (utf8EncodeChar c.toNat ++ rest) =
      (utf8Decode rest).map (fun cs => c :: cs) := by
  have hv := char_valid_range c
  by_cases h1 : c.toNat < 0x80
  · have e : utf8EncodeChar c.toNat = [c.toNat] := by simp [utf8EncodeChar, h1]
    rw [e, List.singleton_append]
    conv_lhs => unfold utf8Decode
    rw [if_pos h1, Char.ofNat_toNat]
  · by_cases h2 : c.toNat < 0x800
    · have e : utf8EncodeChar c.toNat = [0xC0 + c.toNat / 64, 0x80 + c.toNat % 64] := by
        simp [utf8EncodeChar, h1, h2]
      rw [e]
      show utf8Decode ((0xC0 + c.toNat / 64) :: (0x80 + c.toNat % 64) :: rest) = _
      conv_lhs => unfold utf8Decode
      rw [if_neg (by omega), if_neg (by omega), if_pos (by omega)]
      dsimp only
      rw [if_pos (by omega)]
      have hval : (0xC0 + c.toNat / 64 - 0xC0) * 64 + (0x80 + c.toNat % 64 - 0x80)
          = c.toNat := by omega
      rw [hval, Char.ofNat_toNat]
    · by_cases h3 : c.toNat < 0x10000
      · have e : utf8EncodeChar c.toNat =
            [0xE0 + c.toNat / 4096, 0x80 + c.toNat / 64 % 64, 0x80 + c.toNat % 64] := by
          simp [utf8EncodeChar, h1, h2, h3]
        rw [e]
        show utf8Decode ((0xE0 + c.toNat / 4096) :: (0x80 + c.toNat / 64 % 64) ::
          (0x80 + c.toNat % 64) :: rest) = _
        conv_lhs => unfold utf8Decode
        rw [if_neg (by omega), if_neg (by omega), if_neg (by omega), if_pos (by omega)]
        dsimp only
        rw [if_pos (by refine ⟨?_, ?_, ?_, ?_⟩ <;> first | (split <;> omega) | omega)]
        have hval : (0xE0 + c.toNat / 4096 - 0xE0) * 4096 +
            (0x80 + c.toNat / 64 % 64 - 0x80) * 64 + (0x80 + c.toNat % 64 - 0x80)
            = c.toNat := by omega
        rw [hval, Char.ofNat_toNat]
      · have h4 : c.toNat < 0x110000 := by
          rcases hv with h' | h' <;> omega
        have e : utf8EncodeChar c.toNat =
            [0xF0 + c.toNat / 262144, 0x80 + c.toNat / 4096 % 64,
             0x80 + c.toNat / 64 % 64, 0x80 + c.toNat % 64] := by
          simp [utf8EncodeChar, h1, h2, h3]
        rw [e]
        show utf8Decode ((0xF0 + c.toNat / 262144) :: (0x80 + c.toNat / 4096 % 64) ::
          (0x80 + c.toNat / 64 % 64) :: (0x80 + c.toNat % 64) :: rest) = _
        conv_lhs => unfold utf8Decode
        rw [if_neg (by omega), if_neg (by omega), if_neg (by omega), if_neg (by omega),
          if_pos (by omega)]
        dsimp only
        rw [if_pos (by refine ⟨?_, ?_, ?_, ?_, ?_, ?_⟩ <;> first | (split <;> omega) | omega)]
        have hval : (0xF0 + c.toNat / 262144 - 0xF0) * 262144 +
            (0x80 + c.toNat / 4096 % 64 - 0x80) * 4096 +
            (0x80 + c.toNat / 64 % 64 - 0x80) * 64 + (0x80 + c.toNat % 64 - 0x80)
            = c.toNat := by omega
        rw [hval, Char.ofNat_toNat]

theorem utf8_roundtrip (l : List Char) : utf8Decode (utf8Encode l) = some l := by
  induction l with
  | nil => rfl
  | cons c cs ih =>
    show utf8Decode (utf8EncodeChar c.toNat ++ utf8Encode cs) = some (c :: cs)
    rw [utf8Decode_encodeChar, ih]
    rfl

/-! ### Claim C8 -/

theorem getLastD_append_right (l₁ l₂ : List Char) (h : l₂ ≠ []) :
    (l₁ ++ l₂).getLastD 'x' = l₂.getLastD 'x' := by
  rw [List.getLastD_eq_getLast? 'x', List.getLast?_append_of_ne_nil l₁ h,
    ← List.getLastD_eq_getLast? 'x']

/-- C8, counterexample.  `extract_base64_authorization_header` does not
return the token verbatim for every token `t`: with `t = ""` the header
`"Basic "` strips to `"Basic"`, the full match fails (`.+` needs at least
one character), and the result is `none` instead of `some ""`. -/
theorem claim_C8_cex :
    extract_base64_authorization_header (some ("Basic " ++ "")) = none ∧
    extract_base64_authorization_header (some ("Basic " ++ "")) ≠ some "" := by decide

/-- C8, amended.  Decoding the canonical base64 encoding of the UTF-8 bytes
of an arbitrary string `s` gives back `s`; `extract_base64_authorization_header`
maps `"Basic " + t` to `t` for every nonempty token `t` that contains no
newline and does not end in whitespace (the header is stripped first and the
regex `Basic (.+)` must match fully); and `"Bearer " + t` always yields
`none`. -/
theorem claim_C8 :
    (∀ s : String,
      decode_base64_authorization_header
        (some (String.mk (b64EncodeBytes (utf8Encode s.data)))) = .ok (some s)) ∧
    (∀ t : String, t ≠ "" → '\n' ∉ t.data → pyIsSpace (t.data.getLastD 'x') = false →
      extract_base64_authorization_header (some ("Basic " ++ t)) = some t) ∧
    (∀ t : String, extract_base64_authorization_header (some ("Bearer " ++ t)) = none) := by
  refine ⟨?_, ?_, ?_⟩
  · intro s
    have hbytes : ∀ b ∈ utf8Encode s.data, b < 256 := utf8Encode_lt s.data
    have hascii : ∀ ch ∈ b64EncodeBytes (utf8Encode s.data), ch.toNat < 0x80 :=
      b64Encode_ascii _ hbytes
    show (if ∃ ch ∈ b64EncodeBytes (utf8Encode s.data), 0x80 ≤ ch.toNat then
            Except.error ()
          else
            match b64DecodeGroups (b64EncodeBytes (utf8Encode s.data)) with
            | none => .ok none
            | some bytes =>
              match utf8Decode bytes with
              | none => .ok none
              | some cs => .ok (some (String.mk cs))) = .ok (some s)
    rw [if_neg (by
      rintro ⟨ch, hch, hge⟩
      exact absurd hge (Nat.not_le.mpr (hascii ch hch)))]
    rw [b64_roundtrip _ hbytes]
    dsimp only
    rw [utf8_roundtrip]
  · intro t ht hnl hlast
    have ht' : t.data ≠ [] := String.data_ne_nil ht
    have hstrip : pyStripList ("Basic " ++ t).data = "Basic ".data ++ t.data := by
      rw [String.data_append]
      apply pyStripList_eq_self
      · exact (by decide : pyIsSpace 'B' = false)
      · rw [getLastD_append_right "Basic ".data t.data ht']
        exact hlast
    show (let l := pyStripList ("Basic " ++ t).data
          if l.take 6 = "Basic ".data ∧ l.drop 6 ≠ [] ∧ '\n' ∉ l.drop 6 then
            some (String.mk (l.drop 6))
          else none) = some t
    simp only [hstrip]
    have htake : ("Basic ".data ++ t.data).take 6 = "Basic ".data :=
      List.take_left "Basic ".data t.data
    have hdrop : ("Basic ".data ++ t.data).drop 6 = t.data :=
      List.drop_left "Basic ".data t.data
    rw [htake, hdrop, if_pos ⟨rfl, ht', hnl⟩]
  · intro t
    show (let l := pyStripList ("Bearer " ++ t).data
          if l.take 6 = "Basic ".data ∧ l.drop 6 ≠ [] ∧ '\n' ∉ l.drop 6 then
            some (String.mk (l.drop 6))
          else none) = none
    rw [if_neg]
    rintro ⟨htake, -, -⟩
    have hL : ("Bearer " ++ t).data = 'B' :: ("earer ".data ++ t.data) := by
      rw [String.data_append, show "Bearer ".data = 'B' :: "earer ".data from rfl,
        List.cons_append]
    have hdw : ("Bearer " ++ t).data.dropWhile pyIsSpace = ("Bearer " ++ t).data := by
      rw [hL, List.dropWhile_cons]
      simp [show pyIsSpace 'B' = false from by decide]
    have hpre2 : pyStripList ("Bearer " ++ t).data <+: ("Bearer " ++ t).data := by
      unfold pyStripList
      rw [hdw]
      exact rstrip_sublist _
    have hpre1 : "Basic ".data <+: pyStripList ("Bearer " ++ t).data :=
      ⟨(pyStripList ("Bearer " ++ t).data).drop 6, by
        rw [← htake]; exact List.take_append_drop 6 _⟩
    have hpre := hpre1.trans hpre2
    rw [hL] at hpre
    rw [show "Basic ".data = 'B' :: 'a' :: "sic ".data from rfl] at hpre
    rw [List.cons_prefix_cons] at hpre
    obtain ⟨-, hpre⟩ := hpre
    rw [show "earer ".data ++ t.data = 'e' :: ("arer ".data ++ t.data) from rfl] at hpre
    rw [List.cons_prefix_cons] at hpre
    exact absurd hpre.1 (by decide)

/-- C8, witness: the round trip at a concrete multi-byte string, the token
extraction at a concrete base64 token, and the `Bearer` rejection. -/
theorem claim_C8_witness :
    decode_base64_authorization_header
      (some (String.mk (b64EncodeBytes (utf8Encode "hél:lo✓".data)))) = .ok (some "hél:lo✓") ∧
    extract_base64_authorization_header (some ("Basic " ++ "dXNlcjpwYXNz")) =
      some "dXNlcjpwYXNz" ∧
    extract_base64_authorization_header (some ("Bearer " ++ "tok")) = none :=
  ⟨claim_C8.1 "hél:lo✓",
   claim_C8.2.1 "dXNlcjpwYXNz" (by decide) (by decide) (by decide),
   claim_C8.2.2 "tok"⟩

/-- C6.  The resolve chain of `BasicAuth.current_user` is not exception
free: a syntactically well-formed `Basic` header whose token contains a
non-ASCII character (here `¤`) reaches `base64.b64decode`, which raises
`ValueError` — caught neither by the `except (binascii.Error,
UnicodeDecodeError)` clause nor anywhere else — so `current_user`
propagates an exception instead of returning `None`, whatever the user
lookup and password check do. -/
theorem claim_C6 :
    ∀ (search : String → Except Unit (List String)) (valid : String → String → Bool),
      basic_current_user (some "Basic ¤x") search valid = .error () := by
  intro search valid
  rfl

end AlxAuth
